import Mathlib

/-!
# Verification of the RavensWinProbability pipeline

Shallow embedding of the two Python stages of the repository:

* `build_db.py` — loads a CSV into a SQLite table, pruning unnamed index
  columns, adding a dense `row_id` and declaring it primary key;
* `extract_winprob.py` — queries the table for plays of games involving
  the subject team (`"BAL"`), projects each row onto the team's
  perspective, groups plays by game, derives per-game results, metrics,
  and a "most exciting game", and emits a flat CSV plus a nested JSON.

Win probabilities, scores and times are modelled over `ℚ`/`ℤ`; SQL
`ROUND(x, d)` and Python `round(x, d)` are both modelled by `roundTo`.
File and database I/O is out of scope (the spec treats the tabular store
as an external collaborator); the embedded functions operate on explicit
lists of rows.
-/

/-- `ROUND(x, d)` / `round(x, d)`: round to `d` decimal places. -/
def roundTo (d : ℕ) (x : ℚ) : ℚ := (round (x * 10 ^ d) : ℤ) / 10 ^ d

/-! ## Extractor data model (`extract_winprob.py`) -/

/-- A row of the `ravens_2024` table, with the columns the extraction SQL
reads.  `wp` and `game_seconds_remaining` are nullable (the SQL filters
on `IS NOT NULL`); the remaining fields are the columns the query
projects out. -/
structure Row where
  game_id : String
  home_team : String
  away_team : String
  season_type : String
  week : Int
  game_seconds_remaining : Option ℚ
  wp : Option ℚ
  home_wp : ℚ
  away_wp : ℚ
  home_score : Int
  away_score : Int
  play_desc : String
deriving DecidableEq, Repr

/-- A row of the extraction query's result set (the 11 projected
columns). -/
structure PlayRec where
  game_id : String
  season_type : String
  week : Int
  home_team : String
  away_team : String
  minutes_elapsed : ℚ
  minutes_remaining : ℚ
  win_prob : ℚ
  ravens_score : Int
  opponent_score : Int
  play_desc : String
deriving DecidableEq, Repr

/-- The `WHERE` clause of the extraction query: the row involves BAL as
home or away, and `wp` and `game_seconds_remaining` are non-null. -/
def eligible (r : Row) : Bool :=
  (r.home_team == "BAL" || r.away_team == "BAL")
    && r.wp.isSome && r.game_seconds_remaining.isSome

/-- The `enriched` CTE plus final projection of the extraction query:
time transforms and the home/away perspective selection.  Applied only
to rows passing `eligible`, where `game_seconds_remaining` is non-null
(`getD 0` is never reached on eligible rows). -/
def project (r : Row) : PlayRec :=
  let sr := r.game_seconds_remaining.getD 0
  { game_id := r.game_id
    season_type := r.season_type
    week := r.week
    home_team := r.home_team
    away_team := r.away_team
    minutes_elapsed := roundTo 3 ((3600 - sr) / 60)
    minutes_remaining := roundTo 3 (sr / 60)
    win_prob := if r.home_team == "BAL" then r.home_wp else r.away_wp
    ravens_score := if r.home_team == "BAL" then r.home_score else r.away_score
    opponent_score := if r.home_team == "BAL" then r.away_score else r.home_score
    play_desc := r.play_desc }

/-- `ORDER BY game_id, minutes_elapsed`. -/
def rowOrder (a b : PlayRec) : Bool :=
  if a.game_id = b.game_id then a.minutes_elapsed ≤ b.minutes_elapsed
  else a.game_id < b.game_id

/-- `fetch_rows`: filter, project, and order the table's rows. -/
def fetchRows (db : List Row) : List PlayRec :=
  ((db.filter eligible).map project).mergeSort rowOrder

/-- First-occurrence deduplication, the key order of a Python dict built
by repeated `setdefault`. -/
def firstDedup : List String → List String
  | [] => []
  | x :: xs => x :: (firstDedup xs).filter (· ≠ x)

/-- The distinct `game_id`s, in first-encounter order (the key order of
the `by_game` dict in `derive_game_results`). -/
def gameKeys (rows : List PlayRec) : List String :=
  firstDedup (rows.map (·.game_id))

/-- Grouping by `game_id` as the `by_game` dict of `derive_game_results`
performs it: keys in first-encounter order, each group holding that
game's rows in their original order. -/
def groupByGame (rows : List PlayRec) : List (String × List PlayRec) :=
  (gameKeys rows).map fun gid => (gid, rows.filter fun r => r.game_id == gid)

/-- The sort key of `derive_game_results`: ascending `minutes_elapsed`. -/
def byTime (a b : PlayRec) : Bool := a.minutes_elapsed ≤ b.minutes_elapsed

/-- `plays_sorted[-1]['win_prob'] = float(final_wp)`: replace the last
play's win probability. -/
def snapLast (v : ℚ) : List PlayRec → List PlayRec
  | [] => []
  | [p] => [{ p with win_prob := v }]
  | p :: q :: rest => p :: snapLast v (q :: rest)

/-- The is-leading indicator `wp >= 0.5`. -/
def isLeading (w : ℚ) : Bool := 1 / 2 ≤ w

/-- Count of adjacent pairs whose is-leading indicator differs (the
`lead_changes` loop). -/
def leadChanges : List ℚ → ℕ
  | [] => 0
  | [_] => 0
  | a :: b :: rest =>
      (if isLeading a ≠ isLeading b then 1 else 0) + leadChanges (b :: rest)

/-- `max(wps)` on a nonempty list, via `foldl`. -/
def listMax (w : ℚ) (ws : List ℚ) : ℚ := ws.foldl max w

/-- `min(wps)` on a nonempty list, via `foldl`. -/
def listMin (w : ℚ) (ws : List ℚ) : ℚ := ws.foldl min w

/-- One element of `games_out`: the tuple
`(gid, plays_sorted, result, final_wp, ravens_score, opp_score, metrics)`. -/
structure GameOut where
  gid : String
  plays : List PlayRec
  result : String
  final_wp : ℚ
  ravens_score : Int
  opp_score : Int
  lead_changes : ℕ
  amplitude : ℚ
deriving DecidableEq, Repr

/-- The per-group body of `derive_game_results`.  An empty group would
make `plays_sorted[-1]` raise in Python; this is modelled by `none`. -/
def deriveGame (gid : String) (plays : List PlayRec) : Option GameOut :=
  let ps := plays.mergeSort byTime
  match ps.getLast? with
  | none => none
  | some last =>
      let result := if last.opponent_score < last.ravens_score then "W" else "L"
      let final_wp : ℚ := if result = "W" then 1 else 0
      let snapped := snapLast final_wp ps
      let wps := snapped.map (·.win_prob)
      let amplitude :=
        match wps with
        | [] => roundTo 6 0
        | w :: ws => roundTo 6 (listMax w ws - listMin w ws)
      some { gid := gid
             plays := snapped
             result := result
             final_wp := final_wp
             ravens_score := last.ravens_score
             opp_score := last.opponent_score
             lead_changes := leadChanges wps
             amplitude := amplitude }

/-- `derive_game_results`: group by game and derive each game's tuple. -/
def deriveGameResults (rows : List PlayRec) : List GameOut :=
  (groupByGame rows).filterMap fun g => deriveGame g.1 g.2

/-- `write_csv`: one CSV row per result-set row, carrying exactly the 11
projected fields (which are exactly the fields of `PlayRec`). -/
def writeCsv (rows : List PlayRec) : List PlayRec := rows

/-- Python tuple comparison `key > best_tuple` on
`(lead_changes, amplitude)` pairs. -/
def pairGt (p q : Int × ℚ) : Bool := q.1 < p.1 || (p.1 == q.1 && q.2 < p.2)

/-- One iteration of the best-so-far loop of `write_json`: a game with
nonempty plays replaces the best only when its
`(lead_changes, amplitude)` pair is strictly greater. -/
def bestStep (best : Option String × (Int × ℚ)) (g : GameOut) :
    Option String × (Int × ℚ) :=
  if g.plays.isEmpty then best
  else if pairGt ((g.lead_changes : Int), g.amplitude) best.2 then
    (some g.gid, ((g.lead_changes : Int), g.amplitude))
  else best

/-- The best-so-far fold of `write_json`, starting from
`(None, (-1, -1.0))`. -/
def bestGid (games : List GameOut) : Option String :=
  (games.foldl bestStep ((none : Option String), ((-1 : Int), (-1 : ℚ)))).1

/-- The `(lead_changes, amplitude)` key of a game (spec wording: the
lexicographic pair). -/
def lexPair (g : GameOut) : Int × ℚ := ((g.lead_changes : Int), g.amplitude)

/-- Spec-side lexicographic strict order on `(lead_changes, amplitude)`
pairs. -/
def lexLt (p q : Int × ℚ) : Prop := p.1 < q.1 ∨ (p.1 = q.1 ∧ p.2 < q.2)

/-- Spec-side lexicographic order on `(lead_changes, amplitude)`
pairs. -/
def lexLe (p q : Int × ℚ) : Prop := p.1 < q.1 ∨ (p.1 = q.1 ∧ p.2 ≤ q.2)

/-- A `(t, wp)` pair of the nested export. -/
structure PlayPoint where
  t : ℚ
  wp : ℚ
deriving DecidableEq, Repr

/-- One entry of the `games` array of the JSON payload. -/
structure GameEntry where
  game_id : String
  season_type : String
  week : Int
  home_team : String
  away_team : String
  result : String
  final_wp : ℚ
  points_ravens : Int
  points_opponent : Int
  lead_changes : ℕ
  amplitude : ℚ
  highlight : Bool
  plays : List PlayPoint
deriving DecidableEq, Repr

/-- The JSON payload: the `games` array plus `most_exciting_game_id`. -/
structure JsonPayload where
  games : List GameEntry
  most_exciting_game_id : Option String
deriving DecidableEq, Repr

/-- One entry of the second loop of `write_json`.  `plays_sorted[0]`
raises in Python on an empty group; modelled by `none`. -/
def gameEntry (best : Option String) (g : GameOut) : Option GameEntry :=
  match g.plays with
  | [] => none
  | first :: _ =>
      some { game_id := g.gid
             season_type := first.season_type
             week := first.week
             home_team := first.home_team
             away_team := first.away_team
             result := g.result
             final_wp := g.final_wp
             points_ravens := g.ravens_score
             points_opponent := g.opp_score
             lead_changes := g.lead_changes
             amplitude := g.amplitude
             highlight := some g.gid == best
             plays := g.plays.map fun p => ⟨p.minutes_elapsed, p.win_prob⟩ }

/-- `write_json`: select the most exciting game, then serialize every
game. -/
def writeJson (games : List GameOut) : JsonPayload :=
  { games := games.filterMap (gameEntry (bestGid games))
    most_exciting_game_id := bestGid games }

/-- `main` after the database-existence check: fetch, abort on an empty
result set, otherwise write both exports.  The `Except` error is the
`RuntimeError`; no output is produced on that path. -/
def mainRun (db : List Row) : Except String (List PlayRec × JsonPayload) :=
  let rows := fetchRows db
  if rows.isEmpty then .error "No rows returned by extraction SQL."
  else .ok (writeCsv rows, writeJson (deriveGameResults rows))

/-! ## Loader data model (`build_db.py`)

The loader is modelled post-CSV-parse: a `Df` is the column-oriented
DataFrame `pandas.read_csv` produces (CSV parsing itself is an external
collaborator per the spec).  After `read_csv`'s dtype inference a cell
is a number, a non-numeric string, or a missing value (`NaN`). -/

/-- A DataFrame cell after `read_csv` dtype inference. -/
inductive CellVal where
  | num : ℚ → CellVal
  | str : String → CellVal
  | null : CellVal
deriving DecidableEq, Repr

/-- `pd.to_numeric(·, errors="coerce")` on one cell: numbers pass
through, non-numeric strings and missing values become `NaN` (`none`).
(Numeric-looking strings cannot occur post-inference.) -/
def toNumeric : CellVal → Option ℚ
  | .num q => some q
  | .str _ => none
  | .null => none

/-- A DataFrame: named columns in order.  All columns of a well-formed
frame have length `nrows`. -/
structure Df where
  cols : List (String × List CellVal)
deriving DecidableEq, Repr

/-- `len(df)`: the row count (length of the first column, 0 if none). -/
def Df.nrows (df : Df) : ℕ :=
  match df.cols with
  | [] => 0
  | c :: _ => c.2.length

/-- `col.lower().startswith("unnamed")`, at the character level (column
names are ASCII, where Python `str.lower` agrees with
`Char.toLower`). -/
def isUnnamedName (name : String) : Bool :=
  (name.data.map Char.toLower).take 7 == "unnamed".data

/-- The drop condition of `load_csv`: the name is an unnamed artifact,
every coerced value is non-null (`as_int.notna().all()`), and the
non-null coerced values are exactly `0..n-1`
(`as_int.dropna().reset_index(drop=True) == range(len(df))` all true). -/
def droppableCol (n : ℕ) (c : String × List CellVal) : Bool :=
  isUnnamedName c.1
    && c.2.all (fun v => (toNumeric v).isSome)
    && c.2.filterMap toNumeric == (List.range n).map (fun i : ℕ => (i : ℚ))

/-- The column-pruning loop of `load_csv` (the part after the external
`read_csv` call): drop every unnamed sequential-index column. -/
def load_csv (df : Df) : Df :=
  ⟨df.cols.filter fun c => !droppableCol df.nrows c⟩

/-- `add_row_id`: if no `row_id` column exists, insert one holding
`1..n` at position 0. -/
def add_row_id (df : Df) : Df :=
  if df.cols.any (fun c => c.1 == "row_id") then df
  else ⟨("row_id", (List.range df.nrows).map fun i : ℕ => .num ((i : ℚ) + 1)) :: df.cols⟩

/-- A SQLite table: its columns plus which column (if any) is declared
`INTEGER PRIMARY KEY`. -/
structure Table where
  cols : List (String × List CellVal)
  pk : Option String
deriving DecidableEq, Repr

/-- Row count of a table. -/
def Table.nrows (t : Table) : ℕ :=
  match t.cols with
  | [] => 0
  | c :: _ => c.2.length

/-- `pandas.DataFrame.to_sql` with `if_exists='replace'`: drop any
existing table and create a fresh one from the frame; no primary key is
declared. -/
def toSqlReplace (df : Df) : Table := ⟨df.cols, none⟩

/-- `pandas.DataFrame.to_sql` with `if_exists='append'`: extend each
existing column with the frame's column of the same name (create the
table when absent). -/
def toSqlAppend (df : Df) : Option Table → Table
  | none => ⟨df.cols, none⟩
  | some t =>
      ⟨t.cols.map fun c =>
        (c.1, c.2 ++ (((df.cols.find? fun d => d.1 == c.1).map (·.2)).getD [])),
       t.pk⟩

/-- The caller-selectable table-conflict policy (`--if-exists`). -/
inductive Policy where
  | fail | replace | append
deriving DecidableEq, Repr

/-- `write_sqlite`: explicit `DROP TABLE` on `replace`, then `to_sql`
with `'append' if if_exists == 'append' else 'replace'`, then (when the
policy is not `append`) the primary-key check-and-rebuild, and finally
`SELECT COUNT(*)`.  The rebuild declares `row_id INTEGER PRIMARY KEY`
when a `row_id` column is present.  No path raises, so the result is
always `.ok`. -/
def write_sqlite (df : Df) (store : Option Table) (if_exists : Policy) :
    Except String (Table × ℕ) :=
  let store := if if_exists = .replace then none else store
  let t :=
    if if_exists = .append then toSqlAppend df store else toSqlReplace df
  let t :=
    if if_exists ≠ .append then
      if t.cols.any (fun c => c.1 == "row_id") then { t with pk := some "row_id" }
      else { t with pk := none }
    else t
  .ok (t, t.nrows)

/-! ## Concrete example inputs (used by witnesses and counterexamples) -/

/-- A play of a game not involving BAL (used to witness the
empty-result path). -/
def kcRow : Row :=
  { game_id := "2024_01_KC_DEN", home_team := "KC", away_team := "DEN",
    season_type := "REG", week := 1,
    game_seconds_remaining := some 3600, wp := some (1/2),
    home_wp := 1/2, away_wp := 1/2, home_score := 0, away_score := 0,
    play_desc := "kickoff" }

/-- The spec's synthetic round-trip input, game 1 (BAL at home vs KC),
opening play. -/
def exR1 : Row :=
  { game_id := "G1", home_team := "BAL", away_team := "KC",
    season_type := "REG", week := 1,
    game_seconds_remaining := some 3600, wp := some (1/2),
    home_wp := 11/20, away_wp := 9/20, home_score := 0, away_score := 0,
    play_desc := "open1" }

/-- Game 1, final play: BAL (home) leads 24-20. -/
def exR2 : Row :=
  { game_id := "G1", home_team := "BAL", away_team := "KC",
    season_type := "REG", week := 1,
    game_seconds_remaining := some 0, wp := some (9/10),
    home_wp := 9/10, away_wp := 1/10, home_score := 24, away_score := 20,
    play_desc := "end1" }

/-- Game 2 (BAL away at CIN), opening play. -/
def exR3 : Row :=
  { game_id := "G2", home_team := "CIN", away_team := "BAL",
    season_type := "REG", week := 5,
    game_seconds_remaining := some 3600, wp := some (1/2),
    home_wp := 1/2, away_wp := 1/2, home_score := 0, away_score := 0,
    play_desc := "open2" }

/-- Game 2, final play: BAL (away) trails 17-21. -/
def exR4 : Row :=
  { game_id := "G2", home_team := "CIN", away_team := "BAL",
    season_type := "REG", week := 5,
    game_seconds_remaining := some 0, wp := some (1/5),
    home_wp := 4/5, away_wp := 1/5, home_score := 21, away_score := 17,
    play_desc := "end2" }

/-- The synthetic 4-row, 2-game store of the round-trip scenario. -/
def exDb : List Row := [exR1, exR2, exR3, exR4]

/-- `project exR1`. -/
def exQ1 : PlayRec :=
  { game_id := "G1", season_type := "REG", week := 1, home_team := "BAL",
    away_team := "KC", minutes_elapsed := 0, minutes_remaining := 60,
    win_prob := 11/20, ravens_score := 0, opponent_score := 0,
    play_desc := "open1" }

/-- `project exR2`. -/
def exQ2 : PlayRec :=
  { game_id := "G1", season_type := "REG", week := 1, home_team := "BAL",
    away_team := "KC", minutes_elapsed := 60, minutes_remaining := 0,
    win_prob := 9/10, ravens_score := 24, opponent_score := 20,
    play_desc := "end1" }

/-- `project exR3`. -/
def exQ3 : PlayRec :=
  { game_id := "G2", season_type := "REG", week := 5, home_team := "CIN",
    away_team := "BAL", minutes_elapsed := 0, minutes_remaining := 60,
    win_prob := 1/2, ravens_score := 0, opponent_score := 0,
    play_desc := "open2" }

/-- `project exR4` (BAL is the away side: away win probability and the
swapped scores). -/
def exQ4 : PlayRec :=
  { game_id := "G2", season_type := "REG", week := 5, home_team := "CIN",
    away_team := "BAL", minutes_elapsed := 60, minutes_remaining := 0,
    win_prob := 1/5, ravens_score := 17, opponent_score := 21,
    play_desc := "end2" }

/-- The game aggregate derived for game `G1`: a 24-20 home win, with the
last play's win probability snapped to 1. -/
def exG1 : GameOut :=
  { gid := "G1", plays := [exQ1, { exQ2 with win_prob := 1 }],
    result := "W", final_wp := 1, ravens_score := 24, opp_score := 20,
    lead_changes := 0, amplitude := 9/20 }

/-- The game aggregate derived for game `G2`: a 17-21 away loss, with
the last play's win probability snapped to 0. -/
def exG2 : GameOut :=
  { gid := "G2", plays := [exQ3, { exQ4 with win_prob := 0 }],
    result := "L", final_wp := 0, ravens_score := 17, opp_score := 21,
    lead_changes := 1, amplitude := 1/2 }

/-- A single play of a single game (small witness input). -/
def onePlay : PlayRec :=
  { game_id := "G1", season_type := "REG", week := 1, home_team := "BAL",
    away_team := "KC", minutes_elapsed := 0, minutes_remaining := 60,
    win_prob := 1/2, ravens_score := 0, opponent_score := 0,
    play_desc := "kick" }

/-- A pre-existing destination table with two rows (conflict-policy
examples). -/
def oldTable : Table := ⟨[("a", [.num 1, .num 2])], none⟩

/-- A one-row source frame loaded on top of `oldTable`. -/
def newDf : Df := ⟨[("a", [.num 9])]⟩

/-- A two-row source frame with no `row_id` column (fresh replace
load). -/
def srcDf : Df := ⟨[("a", [.str "x", .str "y"])]⟩

/-- A frame with an unnamed positional column `0..n-1` next to a data
column. -/
def unnamedSeqDf : Df :=
  ⟨[("Unnamed: 0", [.num 0, .num 1]), ("team", [.str "BAL", .str "KC"])]⟩

/-- A frame whose unnamed column does not hold `0..n-1`. -/
def unnamedOtherDf : Df :=
  ⟨[("Unnamed: 0", [.num 5, .num 7]), ("team", [.str "BAL", .str "KC"])]⟩

/-! ## General helper lemmas -/

theorem length_filter_not_add_countP {α : Type} (p : α → Bool) :
    ∀ l : List α, (l.filter fun a => !p a).length + l.countP p = l.length
  | [] => rfl
  | a :: l => by
    have ih := length_filter_not_add_countP p l
    by_cases ha : p a
    · simp only [List.filter_cons, List.countP_cons, ha, Bool.not_true, if_true,
        if_false, List.length_cons]
      simp only [Bool.false_eq_true, if_false]
      omega
    · have ha' : p a = false := Bool.eq_false_iff.mpr ha
      simp only [List.filter_cons, List.countP_cons, ha', Bool.not_false, if_true,
        List.length_cons]
      simp only [Bool.false_eq_true, if_false, if_true, List.length_cons]
      omega

theorem mem_firstDedup {a : String} : ∀ {l : List String}, a ∈ firstDedup l ↔ a ∈ l
  | [] => Iff.rfl
  | x :: xs => by
    by_cases hax : a = x
    · subst hax; simp [firstDedup]
    · have hx : a ∈ firstDedup xs ↔ a ∈ xs := mem_firstDedup
      simp only [firstDedup, List.mem_cons, List.mem_filter, hx]
      simp [hax]

theorem firstDedup_nodup : ∀ (l : List String), (firstDedup l).Nodup
  | [] => List.nodup_nil
  | x :: xs => by
    refine List.nodup_cons.mpr ⟨fun hx => ?_, (firstDedup_nodup xs).filter _⟩
    have := (List.mem_filter.mp hx).2
    simp at this

theorem mem_gameKeys {gid : String} {rows : List PlayRec} :
    gid ∈ gameKeys rows ↔ ∃ r ∈ rows, r.game_id = gid := by
  rw [gameKeys, mem_firstDedup, List.mem_map]

theorem group_of_mem_groupByGame {rows : List PlayRec} {g : String × List PlayRec}
    (h : g ∈ groupByGame rows) :
    g.1 ∈ gameKeys rows ∧ g.2 = rows.filter fun r => r.game_id == g.1 := by
  rcases List.mem_map.mp h with ⟨gid, hgid, rfl⟩
  exact ⟨hgid, rfl⟩

theorem groupByGame_group_ne_nil {rows : List PlayRec} {g : String × List PlayRec}
    (h : g ∈ groupByGame rows) : g.2 ≠ [] := by
  obtain ⟨hk, hg⟩ := group_of_mem_groupByGame h
  obtain ⟨r, hr, hid⟩ := mem_gameKeys.mp hk
  intro hnil
  have : r ∈ g.2 := hg ▸ List.mem_filter.mpr ⟨hr, by simp [hid]⟩
  simp [hnil] at this

theorem length_snapLast (v : ℚ) : ∀ ps : List PlayRec, (snapLast v ps).length = ps.length
  | [] => rfl
  | [_] => rfl
  | _ :: q :: rest => by
    simpa [snapLast] using length_snapLast v (q :: rest)

theorem snapLast_map_win_prob (v : ℚ) :
    ∀ ps : List PlayRec, ps ≠ [] →
      (snapLast v ps).map (·.win_prob) = (ps.map (·.win_prob)).dropLast ++ [v]
  | [], h => absurd rfl h
  | [_], _ => rfl
  | p :: q :: rest, _ => by
    have ih := snapLast_map_win_prob v (q :: rest) (by simp)
    simp only [snapLast, List.map_cons, ih]
    rfl

theorem snapLast_map_minutes_elapsed (v : ℚ) :
    ∀ ps : List PlayRec,
      (snapLast v ps).map (·.minutes_elapsed) = ps.map (·.minutes_elapsed)
  | [] => rfl
  | [_] => rfl
  | p :: q :: rest => by
    simpa [snapLast] using snapLast_map_minutes_elapsed v (q :: rest)

theorem leadChanges_le : ∀ l : List ℚ, l ≠ [] → leadChanges l + 1 ≤ l.length
  | [], h => absurd rfl h
  | [_], _ => by simp [leadChanges]
  | _ :: b :: rest, _ => by
    have ih := leadChanges_le (b :: rest) (by simp)
    simp only [leadChanges, List.length_cons] at *
    split <;> omega

theorem le_listMax : ∀ (ws : List ℚ) (w : ℚ), w ≤ listMax w ws
  | [], _ => le_refl _
  | x :: xs, w => le_trans (le_max_left w x) (le_listMax xs (max w x))

theorem mem_le_listMax : ∀ (ws : List ℚ) (w x : ℚ), x ∈ ws → x ≤ listMax w ws
  | y :: ys, w, x, hx => by
    rcases List.mem_cons.mp hx with rfl | hx
    · exact le_trans (le_max_right w x) (le_listMax ys _)
    · exact mem_le_listMax ys _ x hx

theorem listMax_le : ∀ (ws : List ℚ) (w c : ℚ), w ≤ c → (∀ x ∈ ws, x ≤ c) →
    listMax w ws ≤ c
  | [], _, _, hw, _ => hw
  | y :: ys, w, c, hw, hys =>
    listMax_le ys _ c (max_le hw (hys y (by simp)))
      fun x hx => hys x (List.mem_cons_of_mem _ hx)

theorem listMin_le : ∀ (ws : List ℚ) (w : ℚ), listMin w ws ≤ w
  | [], _ => le_refl _
  | x :: xs, w => le_trans (listMin_le xs (min w x)) (min_le_left w x)

theorem le_listMin : ∀ (ws : List ℚ) (w c : ℚ), c ≤ w → (∀ x ∈ ws, c ≤ x) →
    c ≤ listMin w ws
  | [], _, _, hw, _ => hw
  | y :: ys, w, c, hw, hys =>
    le_listMin ys _ c (le_min hw (hys y (by simp)))
      fun x hx => hys x (List.mem_cons_of_mem _ hx)

theorem round_monotone {x y : ℚ} (h : x ≤ y) : round x ≤ round y := by
  rw [round_eq, round_eq]
  exact Int.floor_le_floor (by linarith)

theorem roundTo_nonneg {d : ℕ} {x : ℚ} (h : 0 ≤ x) : 0 ≤ roundTo d x := by
  rw [roundTo]
  apply div_nonneg _ (by positivity)
  have h0 : round (0 : ℚ) ≤ round (x * 10 ^ d) :=
    round_monotone (by positivity)
  rw [round_zero] at h0
  exact_mod_cast h0

theorem roundTo_le_one {d : ℕ} {x : ℚ} (h : x ≤ 1) : roundTo d x ≤ 1 := by
  rw [roundTo]
  rw [div_le_one (by positivity)]
  have h1 : round (x * 10 ^ d) ≤ round ((10 : ℚ) ^ d) := by
    apply round_monotone
    calc x * 10 ^ d ≤ 1 * 10 ^ d := by
          apply mul_le_mul_of_nonneg_right h (by positivity)
      _ = 10 ^ d := one_mul _
  have h2 : round ((10 : ℚ) ^ d) = (10 ^ d : ℤ) := by
    rw [show ((10 : ℚ) ^ d) = ((10 ^ d : ℤ) : ℚ) by push_cast; ring]
    exact round_intCast _
  rw [h2] at h1
  exact_mod_cast h1

/-! ## Inversion lemmas for the aggregator -/

theorem deriveGame_isSome_of_ne_nil {gid : String} {plays : List PlayRec}
    (h : plays ≠ []) : (deriveGame gid plays).isSome := by
  have hne : plays.mergeSort byTime ≠ [] := by
    intro hnil
    have : (plays.mergeSort byTime).length = plays.length :=
      List.length_mergeSort plays
    rw [hnil] at this
    exact h (List.length_eq_zero.mp this.symm)
  obtain ⟨l, hl⟩ := Option.isSome_iff_exists.mp (List.getLast?_isSome.mpr hne)
  simp only [deriveGame, hl]
  rfl

theorem deriveGame_some_inv {gid : String} {plays : List PlayRec} {go : GameOut}
    (h : deriveGame gid plays = some go) :
    ∃ last, (plays.mergeSort byTime).getLast? = some last ∧
      go.gid = gid ∧
      go.result = (if last.opponent_score < last.ravens_score then "W" else "L") ∧
      go.final_wp = (if go.result = "W" then (1 : ℚ) else 0) ∧
      go.plays = snapLast go.final_wp (plays.mergeSort byTime) ∧
      go.ravens_score = last.ravens_score ∧
      go.opp_score = last.opponent_score ∧
      go.lead_changes = leadChanges (go.plays.map (·.win_prob)) ∧
      go.amplitude = (match go.plays.map (·.win_prob) with
        | [] => roundTo 6 0
        | w :: ws => roundTo 6 (listMax w ws - listMin w ws)) := by
  rcases hl : (plays.mergeSort byTime).getLast? with - | last
  · rw [deriveGame, hl] at h
    exact absurd h (by simp)
  · rw [deriveGame, hl] at h
    simp only [Option.some.injEq] at h
    subst h
    exact ⟨last, rfl, rfl, rfl, rfl, rfl, rfl, rfl, rfl, rfl⟩

theorem mem_deriveGameResults {rows : List PlayRec} {go : GameOut}
    (h : go ∈ deriveGameResults rows) :
    ∃ g ∈ groupByGame rows, deriveGame g.1 g.2 = some go := by
  rcases List.mem_filterMap.mp h with ⟨g, hg, hgo⟩
  exact ⟨g, hg, hgo⟩

theorem gameEntry_some_inv {best : Option String} {go : GameOut} {e : GameEntry}
    (h : gameEntry best go = some e) :
    go.plays ≠ [] ∧
      e.plays = go.plays.map (fun p => ⟨p.minutes_elapsed, p.win_prob⟩) ∧
      e.game_id = go.gid ∧ e.result = go.result ∧ e.final_wp = go.final_wp ∧
      e.points_ravens = go.ravens_score ∧ e.points_opponent = go.opp_score ∧
      e.highlight = (some go.gid == best) := by
  rcases hp : go.plays with - | ⟨first, rest⟩
  · rw [gameEntry, hp] at h
    exact absurd h (by simp)
  · rw [gameEntry, hp] at h
    simp only [Option.some.injEq] at h
    subst h
    exact ⟨by simp [hp], by simp [hp], rfl, rfl, rfl, rfl, rfl, rfl⟩

theorem deriveGameResults_plays_ne_nil {rows : List PlayRec} {go : GameOut}
    (h : go ∈ deriveGameResults rows) : go.plays ≠ [] := by
  obtain ⟨g, hg, hgo⟩ := mem_deriveGameResults h
  obtain ⟨last, -, -, -, -, hplays, -⟩ := deriveGame_some_inv hgo
  have hne : g.2 ≠ [] := groupByGame_group_ne_nil hg
  have hlen : go.plays.length = g.2.length := by
    rw [hplays, length_snapLast, List.length_mergeSort]
  intro hnil
  rw [hnil, List.length_nil] at hlen
  exact hne (List.eq_nil_of_length_eq_zero hlen.symm)

/-! ## Claims about the loader -/

/-- **C9.** An empty filtered result set is fatal: `main` raises the
`RuntimeError` and neither the flat nor the nested export is produced. -/
theorem c9_empty_result_fatal (db : List Row) (h : fetchRows db = []) :
    mainRun db = .error "No rows returned by extraction SQL." := by
  simp [mainRun, h]

/-- Witness for C9: a store whose only row does not involve BAL. -/
theorem c9_empty_result_fatal_witness :
    fetchRows [kcRow] = [] ∧
    mainRun [kcRow] = .error "No rows returned by extraction SQL." := by
  have h : fetchRows [kcRow] = [] := by
    simp [fetchRows, eligible, kcRow]
  exact ⟨h, c9_empty_result_fatal _ h⟩

/-- **C6.** Evaluation of the code at the failing input: with policy
`fail` and a pre-existing two-row table, `write_sqlite` does not fail —
it hands `'replace'` to `to_sql` (the expression
`'append' if if_exists == 'append' else 'replace'`) and silently
replaces the table with the one-row frame, reporting success. -/
theorem c6_fail_policy_silently_replaces :
    write_sqlite newDf (some oldTable) .fail = .ok (⟨newDf.cols, none⟩, 1) ∧
    oldTable.nrows = 2 := by
  constructor
  · rfl
  · rfl

/-- **C7.** A fresh `replace` load of a source without a pre-existing
`row_id` column yields a table holding the source columns unchanged plus
a leading `row_id` column with values `1..n` in source order, declared
as the primary key; the reported count is the destination's row count
`n`. -/
theorem c7_replace_load (df : Df) (store : Option Table)
    (h : df.cols.any (fun c => c.1 == "row_id") = false) :
    write_sqlite (add_row_id df) store .replace =
      .ok (⟨("row_id", (List.range df.nrows).map fun i : ℕ => .num ((i : ℚ) + 1)) :: df.cols,
            some "row_id"⟩, df.nrows) := by
  have hadd : add_row_id df =
      ⟨("row_id", (List.range df.nrows).map fun i : ℕ => .num ((i : ℚ) + 1)) :: df.cols⟩ := by
    rw [add_row_id, h]
    exact if_neg (by simp)
  rw [write_sqlite, hadd]
  simp only [toSqlReplace, reduceIte, List.any_cons, beq_self_eq_true, Bool.true_or,
    ne_eq, reduceCtorEq, not_false_eq_true, if_true, Table.nrows,
    List.length_map, List.length_range]

/-- Witness for C7 at a concrete two-row frame. -/
theorem c7_replace_load_witness :
    srcDf.cols.any (fun c => c.1 == "row_id") = false ∧
    write_sqlite (add_row_id srcDf) none .replace =
      .ok (⟨[("row_id", [.num 1, .num 2]), ("a", [.str "x", .str "y"])],
            some "row_id"⟩, 2) := by
  have h : srcDf.cols.any (fun c => c.1 == "row_id") = false := by
    simp [srcDf]
  refine ⟨h, ?_⟩
  have hc := c7_replace_load srcDf none h
  have hrange : (List.range srcDf.nrows).map (fun i : ℕ => CellVal.num ((i : ℚ) + 1)) =
      [.num 1, .num 2] := by
    show (List.range 2).map (fun i : ℕ => CellVal.num ((i : ℚ) + 1)) = [.num 1, .num 2]
    norm_num [List.range_succ]
  rw [hc, hrange]
  rfl

/-- **C8.** The unnamed-column pruning of `load_csv`: the loaded schema
loses exactly the columns whose name marks them as unnamed artifacts and
whose coerced values are exactly `0..n-1`; such a column is absent from
the result (shrinking the schema), while an unnamed column with any
other values — or any named column — is kept. -/
theorem c8_unnamed_pruning (df : Df) (name : String) (vals : List CellVal)
    (hmem : (name, vals) ∈ df.cols) :
    ((load_csv df).cols.length + df.cols.countP (droppableCol df.nrows) = df.cols.length)
    ∧ (isUnnamedName name = true →
        vals.all (fun v => (toNumeric v).isSome) = true →
        vals.filterMap toNumeric = (List.range df.nrows).map (fun i : ℕ => (i : ℚ)) →
        (name, vals) ∉ (load_csv df).cols ∧
          (load_csv df).cols.length < df.cols.length)
    ∧ (isUnnamedName name = true →
        ¬(vals.all (fun v => (toNumeric v).isSome) = true ∧
          vals.filterMap toNumeric = (List.range df.nrows).map (fun i : ℕ => (i : ℚ))) →
        (name, vals) ∈ (load_csv df).cols)
    ∧ (isUnnamedName name = false → (name, vals) ∈ (load_csv df).cols) := by
  have hlen : (load_csv df).cols.length + df.cols.countP (droppableCol df.nrows) =
      df.cols.length := by
    rw [load_csv]
    exact length_filter_not_add_countP _ df.cols
  refine ⟨hlen, fun hu hall hseq => ?_, fun hu hnot => ?_, fun hu => ?_⟩
  · have hdrop : droppableCol df.nrows (name, vals) = true := by
      simp only [droppableCol, hu, hall, Bool.true_and, beq_iff_eq]
      exact hseq
    constructor
    · intro hin
      have := (List.mem_filter.mp hin).2
      rw [hdrop] at this
      simp at this
    · have hpos : 0 < df.cols.countP (droppableCol df.nrows) :=
        List.countP_pos_iff.mpr ⟨(name, vals), hmem, hdrop⟩
      omega
  · have hdrop : droppableCol df.nrows (name, vals) = false := by
      simp only [droppableCol, hu, Bool.true_and]
      rcases Decidable.not_and_iff_or_not.mp hnot with hna | hne
      · simp [Bool.eq_false_iff.mpr hna]
      · have hb : (vals.filterMap toNumeric ==
            (List.range df.nrows).map (fun i : ℕ => (i : ℚ))) = false :=
          beq_eq_false_iff_ne.mpr hne
        simp [hb]
    exact List.mem_filter.mpr ⟨hmem, by simp [hdrop]⟩
  · have hdrop : droppableCol df.nrows (name, vals) = false := by
      simp [droppableCol, hu]
    exact List.mem_filter.mpr ⟨hmem, by simp [hdrop]⟩

/-- Witness for C8: on `unnamedSeqDf` the unnamed `0..n-1` column is
dropped and the schema shrinks; on `unnamedOtherDf` the unnamed column
is kept. -/
theorem c8_unnamed_pruning_witness :
    (("Unnamed: 0", [CellVal.num 0, CellVal.num 1]) ∈ unnamedSeqDf.cols ∧
     ("Unnamed: 0", [CellVal.num 0, CellVal.num 1]) ∉ (load_csv unnamedSeqDf).cols ∧
     (load_csv unnamedSeqDf).cols.length < unnamedSeqDf.cols.length) ∧
    (("Unnamed: 0", [CellVal.num 5, CellVal.num 7]) ∈ unnamedOtherDf.cols ∧
     ("Unnamed: 0", [CellVal.num 5, CellVal.num 7]) ∈ (load_csv unnamedOtherDf).cols) := by
  constructor
  · have hmem : ("Unnamed: 0", [CellVal.num 0, CellVal.num 1]) ∈ unnamedSeqDf.cols := by
      simp [unnamedSeqDf]
    have h := (c8_unnamed_pruning unnamedSeqDf "Unnamed: 0"
        [CellVal.num 0, CellVal.num 1] hmem).2.1
      (by decide)
      (by simp [toNumeric])
      (by show List.filterMap toNumeric _ =
            (List.range unnamedSeqDf.nrows).map (fun i : ℕ => (i : ℚ))
          rw [show unnamedSeqDf.nrows = 2 by rfl]
          norm_num [List.filterMap_cons, toNumeric, List.range_succ])
    exact ⟨hmem, h.1, h.2⟩
  · have hmem : ("Unnamed: 0", [CellVal.num 5, CellVal.num 7]) ∈ unnamedOtherDf.cols := by
      simp [unnamedOtherDf]
    have h := (c8_unnamed_pruning unnamedOtherDf "Unnamed: 0"
        [CellVal.num 5, CellVal.num 7] hmem).2.2.1
      (by decide)
      (by rintro ⟨-, hsq⟩
          rw [show unnamedOtherDf.nrows = 2 by rfl] at hsq
          norm_num [List.filterMap_cons, toNumeric, List.range_succ] at hsq)
    exact ⟨hmem, h⟩

/-! ## Claims about the aggregator and exporter -/

/-- **C10.** Groups are formed only from rows that exist, so every group
is nonempty, the last-play access of `derive_game_results` and the
first-play access of `write_json` always succeed (no `none` case is
taken), and every exported game's plays array is nonempty. -/
theorem c10_groups_nonempty (rows : List PlayRec) :
    (∀ g ∈ groupByGame rows, g.2 ≠ [] ∧ (deriveGame g.1 g.2).isSome)
    ∧ (∀ go ∈ deriveGameResults rows, go.plays ≠ [] ∧
        ∀ best : Option String, (gameEntry best go).isSome)
    ∧ (∀ e ∈ (writeJson (deriveGameResults rows)).games, e.plays ≠ []) := by
  refine ⟨fun g hg => ?_, fun go hgo => ?_, fun e he => ?_⟩
  · have hne := groupByGame_group_ne_nil hg
    exact ⟨hne, deriveGame_isSome_of_ne_nil hne⟩
  · have hne := deriveGameResults_plays_ne_nil hgo
    refine ⟨hne, fun best => ?_⟩
    rcases hp : go.plays with - | ⟨first, rest⟩
    · exact absurd hp hne
    · rw [gameEntry, hp]
      rfl
  · rcases List.mem_filterMap.mp he with ⟨go, hgo, hge⟩
    obtain ⟨hne, hpl, -⟩ := gameEntry_some_inv hge
    intro hnil
    rw [hnil] at hpl
    exact hne (List.map_eq_nil_iff.mp hpl.symm)

/-- Witness for C10 at a one-play store. -/
theorem c10_groups_nonempty_witness :
    (("G1", [onePlay]) ∈ groupByGame [onePlay]) ∧
    ("G1", [onePlay]).2 ≠ [] ∧ (deriveGame "G1" [onePlay]).isSome := by
  have hmem : ("G1", [onePlay]) ∈ groupByGame [onePlay] := by
    simp [groupByGame, gameKeys, firstDedup, onePlay]
  have h := (c10_groups_nonempty [onePlay]).1 _ hmem
  exact ⟨hmem, h.1, h.2⟩

/-- **C3.** The result set holds exactly one team-relative record per
eligible source row (involving BAL, non-null `wp`, non-null
`game_seconds_remaining`), with the rounded time transforms and the
home/away perspective projection of win probability and scores. -/
theorem c3_filter_and_projection (db : List Row) :
    (∀ r : Row, eligible r = ((r.home_team == "BAL" || r.away_team == "BAL")
        && r.wp.isSome && r.game_seconds_remaining.isSome))
    ∧ (fetchRows db).Perm ((db.filter eligible).map project)
    ∧ (∀ r : Row, ∀ s : ℚ, r.game_seconds_remaining = some s →
        (project r).minutes_elapsed = roundTo 3 ((3600 - s) / 60) ∧
        (project r).minutes_remaining = roundTo 3 (s / 60))
    ∧ (∀ r : Row, r.home_team = "BAL" →
        (project r).win_prob = r.home_wp ∧
        (project r).ravens_score = r.home_score ∧
        (project r).opponent_score = r.away_score)
    ∧ (∀ r : Row, r.home_team ≠ "BAL" →
        (project r).win_prob = r.away_wp ∧
        (project r).ravens_score = r.away_score ∧
        (project r).opponent_score = r.home_score) := by
  refine ⟨fun r => rfl, List.mergeSort_perm _ _, fun r s hs => ?_, fun r h => ?_,
    fun r h => ?_⟩
  · rw [project]
    simp [hs]
  · rw [project]
    simp [h]
  · have hb : (r.home_team == "BAL") = false := beq_eq_false_iff_ne.mpr h
    rw [project]
    simp [hb]

/-- Witness for C3 at the synthetic rows: BAL-home and BAL-away
projections and the time transform at 3600 seconds remaining. -/
theorem c3_filter_and_projection_witness :
    (exR1.game_seconds_remaining = some 3600 ∧
      (project exR1).minutes_elapsed = roundTo 3 ((3600 - 3600) / 60) ∧
      (project exR1).minutes_remaining = roundTo 3 (3600 / 60)) ∧
    (exR1.home_team = "BAL" ∧
      (project exR1).win_prob = exR1.home_wp ∧
      (project exR1).ravens_score = exR1.home_score ∧
      (project exR1).opponent_score = exR1.away_score) ∧
    (exR4.home_team ≠ "BAL" ∧
      (project exR4).win_prob = exR4.away_wp ∧
      (project exR4).ravens_score = exR4.away_score ∧
      (project exR4).opponent_score = exR4.home_score) := by
  have h := c3_filter_and_projection []
  refine ⟨⟨rfl, h.2.2.1 exR1 3600 rfl⟩, ⟨rfl, h.2.2.2.1 exR1 rfl⟩,
    ⟨by decide, h.2.2.2.2 exR4 (by decide)⟩⟩

/-! ## Evaluation of the pipeline on the synthetic store -/

theorem project_exR1 : project exR1 = exQ1 := by
  norm_num [project, exR1, exQ1, roundTo, round_eq]

theorem project_exR2 : project exR2 = exQ2 := by
  norm_num [project, exR2, exQ2, roundTo, round_eq]

theorem project_exR3 : project exR3 = exQ3 := by
  norm_num [project, exR3, exQ3, roundTo, round_eq]

theorem project_exR4 : project exR4 = exQ4 := by
  norm_num [project, exR4, exQ4, roundTo, round_eq]
  all_goals decide

theorem fetchRows_exDb : fetchRows exDb = [exQ1, exQ2, exQ3, exQ4] := by
  have he1 : eligible exR1 = true := by simp [eligible, exR1]
  have he2 : eligible exR2 = true := by simp [eligible, exR2]
  have he3 : eligible exR3 = true := by simp [eligible, exR3]
  have he4 : eligible exR4 = true := by simp [eligible, exR4]
  have hfil : exDb.filter eligible = exDb := by
    rw [exDb]
    simp [List.filter_cons, he1, he2, he3, he4]
  have hmap : exDb.map project = [exQ1, exQ2, exQ3, exQ4] := by
    simp [exDb, project_exR1, project_exR2, project_exR3, project_exR4]
  rw [fetchRows, hfil, hmap]
  apply List.mergeSort_of_sorted
  norm_num [rowOrder, exQ1, exQ2, exQ3, exQ4, String.lt_iff_toList_lt]
  all_goals decide

theorem deriveGame_g1 : deriveGame "G1" [exQ1, exQ2] = some exG1 := by
  have hms : List.mergeSort [exQ1, exQ2] byTime = [exQ1, exQ2] :=
    List.mergeSort_of_sorted (by norm_num [byTime, exQ1, exQ2])
  rw [deriveGame, hms]
  norm_num [exQ1, exQ2, exG1, snapLast, leadChanges, isLeading, listMax, listMin,
    roundTo, round_eq, max_def, min_def]

theorem deriveGame_g2 : deriveGame "G2" [exQ3, exQ4] = some exG2 := by
  have hms : List.mergeSort [exQ3, exQ4] byTime = [exQ3, exQ4] :=
    List.mergeSort_of_sorted (by norm_num [byTime, exQ3, exQ4])
  have hLW : ¬("L" = "W") := by decide
  rw [deriveGame, hms]
  norm_num [exQ3, exQ4, exG2, snapLast, leadChanges, isLeading, listMax, listMin,
    roundTo, round_eq, max_def, min_def, hLW]

theorem groupByGame_ex :
    groupByGame [exQ1, exQ2, exQ3, exQ4] =
      [("G1", [exQ1, exQ2]), ("G2", [exQ3, exQ4])] := by
  have hkeys : gameKeys [exQ1, exQ2, exQ3, exQ4] = ["G1", "G2"] := by
    simp [gameKeys, firstDedup, exQ1, exQ2, exQ3, exQ4]
  rw [groupByGame, hkeys]
  simp [exQ1, exQ2, exQ3, exQ4]

theorem deriveGameResults_ex :
    deriveGameResults [exQ1, exQ2, exQ3, exQ4] = [exG1, exG2] := by
  rw [deriveGameResults, groupByGame_ex]
  simp [List.filterMap_cons, deriveGame_g1, deriveGame_g2]

/-- **C1.** The win/loss result of every game aggregate comes from the
chronologically last play's score comparison (`own > opponent` gives
`"W"`, otherwise — ties included — `"L"`); the last play's win
probability is overwritten with 1 for a win and 0 for a loss; and on the
spec's synthetic 4-row, 2-game store the exported results are `"W"` and
`"L"` with `final_wp` 1 and 0 and the input scores 24-20 and 17-21. -/
theorem c1_result_from_last_play :
    (∀ (gid : String) (plays : List PlayRec) (go : GameOut),
      deriveGame gid plays = some go →
      ∃ last, (plays.mergeSort byTime).getLast? = some last ∧
        go.result = (if last.opponent_score < last.ravens_score then "W" else "L") ∧
        (last.ravens_score = last.opponent_score → go.result = "L") ∧
        go.final_wp = (if go.result = "W" then (1 : ℚ) else 0) ∧
        go.ravens_score = last.ravens_score ∧
        go.opp_score = last.opponent_score ∧
        (go.plays.map (·.win_prob)).getLast? = some go.final_wp)
    ∧ (mainRun exDb).map (fun out =>
        out.2.games.map fun e =>
          (e.game_id, e.result, e.final_wp, e.points_ravens, e.points_opponent)) =
      Except.ok [("G1", "W", (1 : ℚ), (24 : ℤ), (20 : ℤ)),
                 ("G2", "L", (0 : ℚ), (17 : ℤ), (21 : ℤ))] := by
  constructor
  · intro gid plays go h
    obtain ⟨last, hl, hgid, hres, hfw, hplays, hrs, hos, -, -⟩ := deriveGame_some_inv h
    have hne : plays.mergeSort byTime ≠ [] := by
      intro hnil
      rw [hnil] at hl
      exact absurd hl (by simp)
    refine ⟨last, hl, hres, ?_, hfw, hrs, hos, ?_⟩
    · intro heq
      rw [hres, heq, if_neg (lt_irrefl _)]
    · rw [hplays, snapLast_map_win_prob _ _ hne, List.getLast?_concat]
  · simp only [mainRun, fetchRows_exDb, deriveGameResults_ex, List.isEmpty_cons,
      Bool.false_eq_true, if_false]
    simp [Except.map, writeJson, gameEntry, exG1, exG2]

/-- Witness for C1 at game `G1` of the synthetic store. -/
theorem c1_result_from_last_play_witness :
    deriveGame "G1" [exQ1, exQ2] = some exG1 ∧
    ∃ last, ([exQ1, exQ2].mergeSort byTime).getLast? = some last ∧
      exG1.result = (if last.opponent_score < last.ravens_score then "W" else "L") ∧
      (last.ravens_score = last.opponent_score → exG1.result = "L") ∧
      exG1.final_wp = (if exG1.result = "W" then (1 : ℚ) else 0) ∧
      exG1.ravens_score = last.ravens_score ∧
      exG1.opp_score = last.opponent_score ∧
      (exG1.plays.map (·.win_prob)).getLast? = some exG1.final_wp :=
  ⟨deriveGame_g1, c1_result_from_last_play.1 "G1" [exQ1, exQ2] exG1 deriveGame_g1⟩

/-- **C4.** For every game in the aggregated output: `minutes_elapsed`
is non-decreasing over the plays; the last play's win probability equals
`final_wp`, which is exactly 0 or 1; `amplitude` lies in `[0, 1]`
(win-probability fields of the input are probabilities in `[0, 1]`); and
`lead_changes` is at most the play count minus one. -/
theorem c4_invariants (rows : List PlayRec)
    (h : ∀ r ∈ rows, 0 ≤ r.win_prob ∧ r.win_prob ≤ 1) :
    ∀ go ∈ deriveGameResults rows,
      List.Sorted (· ≤ ·) (go.plays.map (·.minutes_elapsed)) ∧
      (go.plays.map (·.win_prob)).getLast? = some go.final_wp ∧
      (go.final_wp = 0 ∨ go.final_wp = 1) ∧
      (0 ≤ go.amplitude ∧ go.amplitude ≤ 1) ∧
      go.lead_changes + 1 ≤ go.plays.length := by
  intro go hgo
  obtain ⟨g, hg, hd⟩ := mem_deriveGameResults hgo
  obtain ⟨last, hl, hgid, hres, hfw, hplays, hrs, hos, hlc, hamp⟩ :=
    deriveGame_some_inv hd
  obtain ⟨hkey, hgrp⟩ := group_of_mem_groupByGame hg
  have hpsne : g.2.mergeSort byTime ≠ [] := by
    intro hnil
    rw [hnil] at hl
    exact absurd hl (by simp)
  have hfw01 : go.final_wp = 0 ∨ go.final_wp = 1 := by
    by_cases hc : go.result = "W"
    · right; rw [hfw, if_pos hc]
    · left; rw [hfw, if_neg hc]
  have hsorted : List.Pairwise
      (fun a b : PlayRec => a.minutes_elapsed ≤ b.minutes_elapsed)
      (g.2.mergeSort byTime) := by
    have hp : List.Pairwise (fun a b => byTime a b = true) (g.2.mergeSort byTime) :=
      List.sorted_mergeSort
      (fun a b c hab hbc => by
        simp only [byTime, decide_eq_true_eq] at *
        exact le_trans hab hbc)
      (fun a b => by
        simp only [byTime, Bool.or_eq_true, decide_eq_true_eq]
        exact le_total _ _)
      g.2
    exact hp.imp fun hab => by simpa [byTime] using hab
  have hsorted' : List.Sorted (· ≤ ·) (go.plays.map (·.minutes_elapsed)) := by
    rw [hplays, snapLast_map_minutes_elapsed]
    exact List.pairwise_map.mpr hsorted
  have hwps : go.plays.map (·.win_prob) =
      ((g.2.mergeSort byTime).map (·.win_prob)).dropLast ++ [go.final_wp] := by
    rw [hplays]
    exact snapLast_map_win_prob _ _ hpsne
  have hbound : ∀ x ∈ go.plays.map (·.win_prob), 0 ≤ x ∧ x ≤ 1 := by
    intro x hx
    rw [hwps] at hx
    rcases List.mem_append.mp hx with hx | hx
    · have hx' : x ∈ (g.2.mergeSort byTime).map (·.win_prob) :=
        (List.dropLast_sublist _).subset hx
      rcases List.mem_map.mp hx' with ⟨p, hp, rfl⟩
      have hpmem : p ∈ g.2 := List.mem_mergeSort.mp hp
      have hprow : p ∈ rows := by
        rw [hgrp] at hpmem
        exact (List.mem_filter.mp hpmem).1
      exact h p hprow
    · rcases List.mem_singleton.mp hx with rfl
      rcases hfw01 with hfw0 | hfw1
      · rw [hfw0]; norm_num
      · rw [hfw1]; norm_num
  have hlast : (go.plays.map (·.win_prob)).getLast? = some go.final_wp := by
    rw [hwps, List.getLast?_concat]
  refine ⟨hsorted', hlast, hfw01, ?_, ?_⟩
  · rcases hw : go.plays.map (·.win_prob) with - | ⟨w, ws⟩
    · rw [hw] at hwps
      exact absurd hwps.symm (by simp)
    · have hampeq : go.amplitude = roundTo 6 (listMax w ws - listMin w ws) := by
        rw [hamp, hw]
      have hw0 : 0 ≤ w ∧ w ≤ 1 := hbound w (by rw [hw]; simp)
      have hws : ∀ x ∈ ws, 0 ≤ x ∧ x ≤ 1 := fun x hx =>
        hbound x (by rw [hw]; simp [hx])
      have hmaxle : listMax w ws ≤ 1 :=
        listMax_le ws w 1 hw0.2 fun x hx => (hws x hx).2
      have hminge : (0 : ℚ) ≤ listMin w ws :=
        le_listMin ws w 0 hw0.1 fun x hx => (hws x hx).1
      have hminmax : listMin w ws ≤ listMax w ws :=
        le_trans (listMin_le ws w) (le_listMax ws w)
      rw [hampeq]
      exact ⟨roundTo_nonneg (by linarith), roundTo_le_one (by linarith)⟩
  · rw [hlc]
    have hne : go.plays.map (·.win_prob) ≠ [] := by
      rw [hwps]
      simp
    have := leadChanges_le (go.plays.map (·.win_prob)) hne
    simpa [List.length_map] using this

/-- Witness for C4 at the synthetic result set (all input
win-probability values lie in `[0, 1]`), checking game `G1`. -/
theorem c4_invariants_witness :
    (∀ r ∈ [exQ1, exQ2, exQ3, exQ4], 0 ≤ r.win_prob ∧ r.win_prob ≤ 1) ∧
    (exG1 ∈ deriveGameResults [exQ1, exQ2, exQ3, exQ4]) ∧
    (List.Sorted (· ≤ ·) (exG1.plays.map (·.minutes_elapsed)) ∧
      (exG1.plays.map (·.win_prob)).getLast? = some exG1.final_wp ∧
      (exG1.final_wp = 0 ∨ exG1.final_wp = 1) ∧
      (0 ≤ exG1.amplitude ∧ exG1.amplitude ≤ 1) ∧
      exG1.lead_changes + 1 ≤ exG1.plays.length) := by
  have hb : ∀ r ∈ [exQ1, exQ2, exQ3, exQ4], 0 ≤ r.win_prob ∧ r.win_prob ≤ 1 := by
    intro r hr
    simp only [List.mem_cons, List.not_mem_nil, or_false] at hr
    rcases hr with rfl | rfl | rfl | rfl
    · norm_num [exQ1]
    · norm_num [exQ2]
    · norm_num [exQ3]
    · norm_num [exQ4]
  have hmem : exG1 ∈ deriveGameResults [exQ1, exQ2, exQ3, exQ4] := by
    rw [deriveGameResults_ex]
    simp
  exact ⟨hb, hmem, c4_invariants _ hb exG1 hmem⟩

/-! ## Partition lemmas for the flat/nested consistency claim -/

theorem partition_perm :
    ∀ (keys : List String) (rows : List PlayRec), keys.Nodup →
      (∀ r ∈ rows, r.game_id ∈ keys) →
      (keys.flatMap fun k => rows.filter fun r => r.game_id == k).Perm rows
  | [], rows, _, hcov => by
    have : rows = [] := by
      cases rows with
      | nil => rfl
      | cons r rs => exact absurd (hcov r (by simp)) (by simp)
    simp [this]
  | k :: ks, rows, hnd, hcov => by
    obtain ⟨hk, hnd'⟩ := List.nodup_cons.mp hnd
    have hsplit :
        (rows.filter (fun r => r.game_id == k)
          ++ rows.filter fun r => !(r.game_id == k)).Perm rows :=
      List.filter_append_perm _ rows
    have hcov' : ∀ r ∈ rows.filter (fun r => !(r.game_id == k)), r.game_id ∈ ks := by
      intro r hr
      obtain ⟨hrm, hrneq⟩ := List.mem_filter.mp hr
      have : r.game_id ≠ k := by simpa using hrneq
      rcases List.mem_cons.mp (hcov r hrm) with h | h
      · exact absurd h this
      · exact h
    have heq : ∀ k' ∈ ks,
        rows.filter (fun r => r.game_id == k') =
          (rows.filter fun r => !(r.game_id == k)).filter fun r => r.game_id == k' := by
      intro k' hk'
      have hkk : k' ≠ k := fun h => hk (h ▸ hk')
      rw [List.filter_filter]
      apply List.filter_congr
      intro r hr
      rcases hb : (r.game_id == k' : Bool) with - | -
      · simp
      · have : r.game_id = k' := by simpa using hb
        simp [this, hkk]
    have hmap :
        (ks.flatMap fun k' => rows.filter fun r => r.game_id == k') =
          ks.flatMap fun k' =>
            (rows.filter fun r => !(r.game_id == k)).filter fun r => r.game_id == k' := by
      rw [List.flatMap, List.flatMap]
      exact congrArg List.flatten (List.map_congr_left heq)
    rw [List.flatMap_cons]
    refine List.Perm.trans ?_ hsplit
    rw [hmap]
    exact List.Perm.append_left _ (partition_perm ks _ hnd' hcov')

theorem flatMap_groups_perm (rows : List PlayRec) :
    ((gameKeys rows).flatMap fun k => rows.filter fun r => r.game_id == k).Perm rows := by
  apply partition_perm _ _ (firstDedup_nodup _)
  intro r hr
  exact mem_gameKeys.mpr ⟨r, hr, rfl⟩

theorem deriveGameResults_shape (rows : List PlayRec) :
    ∀ l : List (String × List PlayRec), (∀ g ∈ l, g.2 ≠ []) →
      ((l.filterMap fun g => deriveGame g.1 g.2).map fun go => go.plays.length) =
          (l.map fun g => g.2.length) ∧
      ((l.filterMap fun g => deriveGame g.1 g.2).map fun go => go.gid) =
          (l.map fun g => g.1)
  | [], _ => ⟨rfl, rfl⟩
  | g :: l, hne => by
    have hg := hne g (by simp)
    obtain ⟨go, hgo⟩ :=
      Option.isSome_iff_exists.mp
        (deriveGame_isSome_of_ne_nil hg : (deriveGame g.1 g.2).isSome)
    obtain ⟨last, -, hgid, -, -, hplays, -⟩ := deriveGame_some_inv hgo
    have hlen : go.plays.length = g.2.length := by
      rw [hplays, length_snapLast, List.length_mergeSort]
    have ih := deriveGameResults_shape rows l fun g' hg' => hne g' (by simp [hg'])
    simp only [List.filterMap_cons, hgo, List.map_cons]
    exact ⟨by rw [hlen, ih.1], by rw [hgid, ih.2]⟩

/-- **C5 (counterexample).** The claim "for every play, the win
probability recorded in the flat export equals the one recorded in the
nested export" fails on the synthetic store: both exports enumerate the
same four (game, play) pairs in the same (game, time) order — the
(game, t) key sequences coincide — yet the flat export keeps the raw
win probabilities while the nested export carries the terminal
overwrite on each game's last play (9/10 vs 1, 1/5 vs 0). -/
theorem c5_wp_mismatch_counterexample :
    ((writeCsv (fetchRows exDb)).map fun r => (r.game_id, r.minutes_elapsed)) =
      ((writeJson (deriveGameResults (fetchRows exDb))).games.flatMap fun e =>
        e.plays.map fun p => (e.game_id, p.t)) ∧
    ((writeCsv (fetchRows exDb)).map fun r => r.win_prob) =
      [11/20, 9/10, 1/2, 1/5] ∧
    ((writeJson (deriveGameResults (fetchRows exDb))).games.flatMap fun e =>
        e.plays.map fun p => p.wp) = [11/20, 1, 1/2, 0] ∧
    ¬(([11/20, 9/10, 1/2, 1/5] : List ℚ) = [11/20, 1, 1/2, 0]) := by
  rw [fetchRows_exDb, deriveGameResults_ex]
  refine ⟨?_, ?_, ?_, ?_⟩
  · simp [writeCsv, writeJson, gameEntry, exG1, exG2, exQ1, exQ2, exQ3, exQ4]
  · simp [writeCsv, exQ1, exQ2, exQ3, exQ4]
  · simp [writeJson, gameEntry, exG1, exG2, exQ1, exQ2, exQ3, exQ4]
  · norm_num

/-- **C5 (amended).** The flat and nested exports of one run reference
an identical set of game identifiers and an identical count of
(game, play) pairs, and agree on every play's win probability except
each game's chronologically last play, where the nested export records
the terminal value `final_wp ∈ {0, 1}` while the flat export keeps the
raw query value. -/
theorem c5_flat_nested_consistency (db : List Row) :
    (∀ gid : String,
      gid ∈ (writeCsv (fetchRows db)).map (fun r => r.game_id) ↔
        gid ∈ (deriveGameResults (fetchRows db)).map fun go => go.gid)
    ∧ (((deriveGameResults (fetchRows db)).map fun go => go.plays.length).sum =
        (writeCsv (fetchRows db)).length)
    ∧ (∀ go ∈ deriveGameResults (fetchRows db),
        (go.plays.map (·.win_prob)).dropLast =
          ((((writeCsv (fetchRows db)).filter fun r =>
              r.game_id == go.gid).mergeSort byTime).map (·.win_prob)).dropLast
        ∧ (go.plays.map (·.win_prob)).getLast? = some go.final_wp
        ∧ (go.final_wp = 0 ∨ go.final_wp = 1)) := by
  have hgrpne : ∀ g ∈ groupByGame (fetchRows db), g.2 ≠ [] :=
    fun g hg => groupByGame_group_ne_nil hg
  obtain ⟨hlen, hgid⟩ := deriveGameResults_shape (fetchRows db) _ hgrpne
  have hdef : deriveGameResults (fetchRows db) =
      (groupByGame (fetchRows db)).filterMap (fun g => deriveGame g.1 g.2) := rfl
  refine ⟨fun gid => ?_, ?_, fun go hgo => ?_⟩
  · rw [hdef, hgid, groupByGame, List.map_map]
    have : ((fun g : String × List PlayRec => g.1) ∘ fun gid =>
        (gid, (fetchRows db).filter fun r => r.game_id == gid)) = id := rfl
    rw [this, List.map_id, writeCsv]
    rw [mem_gameKeys, List.mem_map]
  · rw [hdef, hlen, groupByGame, List.map_map, writeCsv]
    have hflat := (flatMap_groups_perm (fetchRows db)).length_eq
    rw [List.length_flatMap] at hflat
    exact hflat
  · obtain ⟨g, hg, hd⟩ := mem_deriveGameResults hgo
    obtain ⟨last, hl, hgideq, -, -, hplays, -⟩ := deriveGame_some_inv hd
    obtain ⟨-, hgrp⟩ := group_of_mem_groupByGame hg
    have hpsne : g.2.mergeSort byTime ≠ [] := by
      intro hnil
      rw [hnil] at hl
      exact absurd hl (by simp)
    have hwps : go.plays.map (·.win_prob) =
        ((g.2.mergeSort byTime).map (·.win_prob)).dropLast ++ [go.final_wp] := by
      rw [hplays]
      exact snapLast_map_win_prob _ _ hpsne
    refine ⟨?_, by rw [hwps, List.getLast?_concat], ?_⟩
    · rw [hwps, List.dropLast_concat, writeCsv, hgideq, ← hgrp]
    · by_cases hc : go.result = "W"
      · right
        obtain ⟨-, -, -, -, hfw, -⟩ := deriveGame_some_inv hd
        rw [hfw, if_pos hc]
      · left
        obtain ⟨-, -, -, -, hfw, -⟩ := deriveGame_some_inv hd
        rw [hfw, if_neg hc]

/-- Witness for C5 (amended) at the synthetic store, game `G1`. -/
theorem c5_flat_nested_consistency_witness :
    (exG1 ∈ deriveGameResults (fetchRows exDb)) ∧
    ((exG1.plays.map (·.win_prob)).dropLast =
      ((((writeCsv (fetchRows exDb)).filter fun r =>
          r.game_id == exG1.gid).mergeSort byTime).map (·.win_prob)).dropLast
      ∧ (exG1.plays.map (·.win_prob)).getLast? = some exG1.final_wp
      ∧ (exG1.final_wp = 0 ∨ exG1.final_wp = 1)) := by
  have hmem : exG1 ∈ deriveGameResults (fetchRows exDb) := by
    rw [fetchRows_exDb, deriveGameResults_ex]
    simp
  exact ⟨hmem, (c5_flat_nested_consistency exDb).2.2 exG1 hmem⟩

/-! ## Lexicographic-order lemmas for the most-exciting selection -/

theorem pairGt_iff (p q : Int × ℚ) : pairGt p q = true ↔ lexLt q p := by
  simp only [pairGt, lexLt, Bool.or_eq_true, Bool.and_eq_true, decide_eq_true_eq,
    beq_iff_eq]
  constructor
  · rintro (h | ⟨h1, h2⟩)
    · exact Or.inl h
    · exact Or.inr ⟨h1.symm, h2⟩
  · rintro (h | ⟨h1, h2⟩)
    · exact Or.inl h
    · exact Or.inr ⟨h1.symm, h2⟩

theorem lexLe_refl (p : Int × ℚ) : lexLe p p := Or.inr ⟨rfl, le_refl _⟩

theorem lexLe_of_lexLt {p q : Int × ℚ} (h : lexLt p q) : lexLe p q := by
  rcases h with h | ⟨h1, h2⟩
  · exact Or.inl h
  · exact Or.inr ⟨h1, le_of_lt h2⟩

theorem lexLe_of_not_lexLt {p q : Int × ℚ} (h : ¬lexLt p q) : lexLe q p := by
  rw [lexLt, not_or, not_and] at h
  obtain ⟨h1, h2⟩ := h
  rcases lt_trichotomy q.1 p.1 with hlt | heq | hgt
  · exact Or.inl hlt
  · exact Or.inr ⟨heq, by
      by_contra hc
      exact absurd (lt_of_not_le hc) (h2 heq.symm)⟩
  · exact absurd hgt h1

theorem lexLt_trans {p q r : Int × ℚ} (h1 : lexLt p q) (h2 : lexLt q r) :
    lexLt p r := by
  rcases h1 with h1 | ⟨h1a, h1b⟩ <;> rcases h2 with h2 | ⟨h2a, h2b⟩
  · exact Or.inl (lt_trans h1 h2)
  · exact Or.inl (h2a ▸ h1)
  · exact Or.inl (h1a ▸ h2)
  · exact Or.inr ⟨h1a.trans h2a, lt_trans h1b h2b⟩

theorem lexLt_of_lexLe_of_lexLt {p q r : Int × ℚ} (h1 : lexLe p q)
    (h2 : lexLt q r) : lexLt p r := by
  rcases h1 with h1 | ⟨h1a, h1b⟩ <;> rcases h2 with h2 | ⟨h2a, h2b⟩
  · exact Or.inl (lt_trans h1 h2)
  · exact Or.inl (h2a ▸ h1)
  · exact Or.inl (h1a ▸ h2)
  · exact Or.inr ⟨h1a.trans h2a, lt_of_le_of_lt h1b h2b⟩

/-- Characterization of the best-so-far fold: either no game beats the
accumulator (which is then returned unchanged), or the result is the
first game attaining the lexicographic maximum among those beating the
accumulator. -/
theorem bestFold_spec :
    ∀ (gs : List GameOut) (acc : Option String × (Int × ℚ)),
      (∀ g ∈ gs, g.plays ≠ []) →
      ((∀ g ∈ gs, ¬lexLt acc.2 (lexPair g)) ∧ gs.foldl bestStep acc = acc)
      ∨ (∃ l₁ g₀ l₂, gs = l₁ ++ g₀ :: l₂ ∧
          gs.foldl bestStep acc = (some g₀.gid, lexPair g₀) ∧
          lexLt acc.2 (lexPair g₀) ∧
          (∀ g ∈ gs, lexLe (lexPair g) (lexPair g₀)) ∧
          (∀ g ∈ l₁, lexLt (lexPair g) (lexPair g₀)))
  | [], acc, _ => Or.inl ⟨by simp, rfl⟩
  | g :: rest, acc, hne => by
    have hgne : g.plays ≠ [] := hne g (by simp)
    have hstep : ∀ b, bestStep b g =
        if pairGt (lexPair g) b.2 then (some g.gid, lexPair g) else b := by
      intro b
      rw [bestStep, if_neg (by simpa [List.isEmpty_iff] using hgne)]
      rfl
    have hrest : ∀ g' ∈ rest, g'.plays ≠ [] := fun g' h' => hne g' (by simp [h'])
    by_cases hgt : pairGt (lexPair g) acc.2 = true
    · have hacc' : (g :: rest).foldl bestStep acc =
          rest.foldl bestStep (some g.gid, lexPair g) := by
        rw [List.foldl_cons, hstep, if_pos hgt]
      have hlt : lexLt acc.2 (lexPair g) := (pairGt_iff _ _).mp hgt
      rcases bestFold_spec rest (some g.gid, lexPair g) hrest with
        ⟨hnone, hfold⟩ | ⟨l₁, g₀, l₂, heq, hfold, hlt', hmax, hfirst⟩
      · refine Or.inr ⟨[], g, rest, rfl, ?_, hlt, ?_, by simp⟩
        · rw [hacc', hfold]
        · intro g' hg'
          rcases List.mem_cons.mp hg' with rfl | hg'
          · exact lexLe_refl _
          · exact lexLe_of_not_lexLt (hnone g' hg')
      · refine Or.inr ⟨g :: l₁, g₀, l₂, by rw [heq, List.cons_append], ?_, ?_, ?_, ?_⟩
        · rw [hacc', hfold]
        · exact lexLt_trans hlt hlt'
        · intro g' hg'
          rcases List.mem_cons.mp hg' with rfl | hg'
          · exact lexLe_of_lexLt hlt'
          · exact hmax g' (heq ▸ hg')
        · intro g' hg'
          rcases List.mem_cons.mp hg' with rfl | hg'
          · exact hlt'
          · exact hfirst g' hg'
    · have hacc' : (g :: rest).foldl bestStep acc = rest.foldl bestStep acc := by
        rw [List.foldl_cons, hstep, if_neg hgt]
      have hnlt : ¬lexLt acc.2 (lexPair g) := fun hc => hgt ((pairGt_iff _ _).mpr hc)
      have hle : lexLe (lexPair g) acc.2 := lexLe_of_not_lexLt hnlt
      rcases bestFold_spec rest acc hrest with
        ⟨hnone, hfold⟩ | ⟨l₁, g₀, l₂, heq, hfold, hlt', hmax, hfirst⟩
      · refine Or.inl ⟨?_, by rw [hacc', hfold]⟩
        intro g' hg'
        rcases List.mem_cons.mp hg' with rfl | hg'
        · exact hnlt
        · exact hnone g' hg'
      · refine Or.inr ⟨g :: l₁, g₀, l₂, by rw [heq, List.cons_append], ?_, hlt', ?_, ?_⟩
        · rw [hacc', hfold]
        · intro g' hg'
          rcases List.mem_cons.mp hg' with rfl | hg'
          · exact lexLe_of_lexLt (lexLt_of_lexLe_of_lexLt hle hlt')
          · exact hmax g' (heq ▸ hg')
        · intro g' hg'
          rcases List.mem_cons.mp hg' with rfl | hg'
          · exact lexLt_of_lexLe_of_lexLt hle hlt'
          · exact hfirst g' hg'

/-- **C2.** The most exciting game maximizes the lexicographic
`(lead_changes, amplitude)` pair; among exact ties the first game
encountered is retained (everything before the selected game is
strictly smaller); the nested export's highlight flag is true exactly
for entries carrying the selected game's identifier, which is also the
top-level `most_exciting_game_id`. -/
theorem c2_most_exciting (games : List GameOut)
    (hne : ∀ g ∈ games, g.plays ≠ []) (hnonempty : games ≠ []) :
    ∃ l₁ g₀ l₂, games = l₁ ++ g₀ :: l₂ ∧
      bestGid games = some g₀.gid ∧
      (writeJson games).most_exciting_game_id = some g₀.gid ∧
      (∀ g ∈ games, lexLe (lexPair g) (lexPair g₀)) ∧
      (∀ g ∈ l₁, lexLt (lexPair g) (lexPair g₀)) ∧
      (∀ e ∈ (writeJson games).games, e.highlight = (e.game_id == g₀.gid)) := by
  rcases bestFold_spec games ((none : Option String), ((-1 : Int), (-1 : ℚ))) hne with
    ⟨hnone, -⟩ | ⟨l₁, g₀, l₂, heq, hfold, -, hmax, hfirst⟩
  · rcases games with - | ⟨g, rest⟩
    · exact absurd rfl hnonempty
    · exfalso
      apply hnone g (by simp)
      refine Or.inl ?_
      have h0 : (0 : Int) ≤ (g.lead_changes : Int) := Int.natCast_nonneg _
      have : (-1 : Int) < (g.lead_changes : Int) :=
        lt_of_lt_of_le (by norm_num) h0
      simpa [lexPair] using this
  · have hbest : bestGid games = some g₀.gid := by
      rw [bestGid, hfold]
    have hmeg : (writeJson games).most_exciting_game_id = some g₀.gid := hbest
    refine ⟨l₁, g₀, l₂, heq, hbest, hmeg, hmax, hfirst, ?_⟩
    intro e he
    have hgames : (writeJson games).games =
        games.filterMap (gameEntry (bestGid games)) := rfl
    rw [hgames] at he
    rcases List.mem_filterMap.mp he with ⟨go, hgo, hge⟩
    obtain ⟨-, -, hgid, -, -, -, -, hhl⟩ := gameEntry_some_inv hge
    rw [hhl, hgid, hbest]
    rfl

/-- Witness for C2 at the synthetic two-game aggregate list. -/
theorem c2_most_exciting_witness :
    (∀ g ∈ [exG1, exG2], g.plays ≠ []) ∧ (([exG1, exG2] : List GameOut) ≠ []) ∧
    (∃ l₁ g₀ l₂, ([exG1, exG2] : List GameOut) = l₁ ++ g₀ :: l₂ ∧
      bestGid [exG1, exG2] = some g₀.gid ∧
      (writeJson [exG1, exG2]).most_exciting_game_id = some g₀.gid ∧
      (∀ g ∈ [exG1, exG2], lexLe (lexPair g) (lexPair g₀)) ∧
      (∀ g ∈ l₁, lexLt (lexPair g) (lexPair g₀)) ∧
      (∀ e ∈ (writeJson [exG1, exG2]).games, e.highlight = (e.game_id == g₀.gid))) := by
  have h1 : ∀ g ∈ [exG1, exG2], g.plays ≠ [] := by
    intro g hg
    simp only [List.mem_cons, List.not_mem_nil, or_false] at hg
    rcases hg with rfl | rfl
    · simp [exG1]
    · simp [exG2]
  exact ⟨h1, by simp, c2_most_exciting _ h1 (by simp)⟩
